import Mathlib

/-!
Verification of the CHIP-8 emulator core (`chip8_core/src/lib.rs`).

The machine state and every operation the claims touch are shallowly
embedded below.  Machine integers are modelled as `Nat` with explicit
`% 256` / `% 65536` at the points where the source performs wrapping
8-bit / 16-bit arithmetic.  Rust panics (out-of-bounds indexing,
`unimplemented!`, debug-mode underflow) are modelled by `Option`:
a call that would panic returns `none`.  Fixed-size arrays are modelled
as total functions from `Nat`; the source only ever reads them at
indices the surrounding checks keep in bounds.
-/

namespace Chip8

/-- FONTSET from lib.rs: 80 bytes of glyph bitmaps for digits 0-F. -/
def FONTSET : List Nat :=
  [0xF0, 0x90, 0x90, 0x90, 0xF0,
   0x20, 0x60, 0x20, 0x20, 0x70,
   0xF0, 0x10, 0xF0, 0x80, 0xF0,
   0xF0, 0x10, 0xF0, 0x10, 0xF0,
   0x90, 0x90, 0xF0, 0x10, 0x10,
   0xF0, 0x80, 0xF0, 0x10, 0xF0,
   0xF0, 0x80, 0xF0, 0x90, 0xF0,
   0xF0, 0x10, 0x20, 0x40, 0x40,
   0xF0, 0x90, 0xF0, 0x90, 0xF0,
   0xF0, 0x90, 0xF0, 0x10, 0xF0,
   0xF0, 0x90, 0xF0, 0x90, 0x90,
   0xE0, 0x90, 0xE0, 0x90, 0xE0,
   0xF0, 0x80, 0x80, 0x80, 0xF0,
   0xE0, 0x90, 0x90, 0x90, 0xE0,
   0xF0, 0x80, 0xF0, 0x80, 0xF0,
   0xF0, 0x80, 0xF0, 0x80, 0x80]

/-- Machine state of `struct Emu` in lib.rs.  Arrays are functions from
`Nat`; the source sizes are RAM 4096, screen 64*32 = 2048, 16 registers,
16 stack slots, 16 keys. -/
structure Emu where
  pc : Nat
  ram : Nat → Nat
  screen : Nat → Bool
  v_reg : Nat → Nat
  i_reg : Nat
  sp : Nat
  stack : Nat → Nat
  keys : Nat → Bool
  dt : Nat
  st : Nat

/-- Write of the FONTSET over the first 80 bytes of RAM
(`ram[..FONTSET_SIZE].copy_from_slice(&FONTSET)`). -/
def installFontset (ram : Nat → Nat) : Nat → Nat :=
  fun i => if i < 80 then FONTSET.getD i 0 else ram i

/-- Emu::new from lib.rs: fresh machine.  Note the source initialises
every stack slot to 0x200, not 0. -/
def Emu.new : Emu :=
  { pc := 0x200
    ram := installFontset (fun _ => 0)
    screen := fun _ => false
    v_reg := fun _ => 0
    i_reg := 0
    sp := 0
    stack := fun _ => 0x200
    keys := fun _ => false
    dt := 0
    st := 0 }

/-- Emu::reset from lib.rs: overwrites every field with the same default
values Emu::new uses (including stack slots of 0x200), then re-installs
the fontset. -/
def Emu.reset (s : Emu) : Emu :=
  { s with
    pc := 0x200
    ram := installFontset (fun _ => 0)
    screen := fun _ => false
    v_reg := fun _ => 0
    i_reg := 0
    sp := 0
    stack := fun _ => 0x200
    keys := fun _ => false
    dt := 0
    st := 0 }

/-- Emu::push from lib.rs: `stack[sp] = val; sp += 1`.  Indexing the
16-slot stack with `sp >= 16` panics in Rust; that is the `none` case. -/
def Emu.push (s : Emu) (val : Nat) : Option Emu :=
  if s.sp < 16 then
    some { s with stack := Function.update s.stack s.sp val, sp := s.sp + 1 }
  else none

/-- Emu::pop from lib.rs: `sp -= 1; stack[sp]`.  With `sp = 0` the `u16`
subtraction underflows (debug panic; in release the wrapped index 65535
is out of bounds), and with `sp - 1 >= 16` the read is out of bounds:
both are the `none` cases. -/
def Emu.pop (s : Emu) : Option (Emu × Nat) :=
  if 0 < s.sp then
    if s.sp - 1 < 16 then some ({ s with sp := s.sp - 1 }, s.stack (s.sp - 1))
    else none
  else none

/-- Emu::tick_timers from lib.rs.  The source decrements `dt` if nonzero
and `st` if nonzero, and contains an (empty, comment-only `BEEP`) branch
taken exactly when `st == 1` before the decrement.  Modelled from the
spec: the sound-trigger event the spec says is reported to the caller is
returned as the `Bool` component, true exactly when that branch fires. -/
def Emu.tick_timers (s : Emu) : Emu × Bool :=
  let s1 := if 0 < s.dt then { s with dt := s.dt - 1 } else s
  if 0 < s1.st then ({ s1 with st := s1.st - 1 }, decide (s1.st = 1))
  else (s1, false)

/-- First nibble of the opcode: `(op & 0xF000) >> 12`. -/
def digit1 (op : Nat) : Nat := Nat.shiftRight (Nat.land op 0xF000) 12

/-- Second nibble of the opcode: `(op & 0x0F00) >> 8`. -/
def digit2 (op : Nat) : Nat := Nat.shiftRight (Nat.land op 0x0F00) 8

/-- Third nibble of the opcode: `(op & 0x00F0) >> 4`. -/
def digit3 (op : Nat) : Nat := Nat.shiftRight (Nat.land op 0x00F0) 4

/-- Fourth nibble of the opcode: `op & 0x000F`. -/
def digit4 (op : Nat) : Nat := Nat.land op 0x000F

/-- Key-scan loop of opcode FX0A: `for i in 0..keys.len()` with a break
at the first pressed key, written with explicit fuel (the loop runs over
the 16 keys). -/
def findKeyFrom (keys : Nat → Bool) (i fuel : Nat) : Option Nat :=
  match fuel with
  | 0 => none
  | fuel' + 1 => if keys i then some i else findKeyFrom keys (i + 1) fuel'

/-- Scan of all 16 key latches in index order. -/
def findKey (keys : Nat → Bool) : Option Nat := findKeyFrom keys 0 16

/-- Body of the inner `for x_line in 0..8` loop of opcode DXYN.  The
accumulator carries the screen and the `flipped` flag; the source ORs
the pre-flip pixel into `flipped` and then XORs the pixel with true. -/
def drawPixelStep (xcoord ycoord yline pixels : Nat) (acc : (Nat → Bool) × Bool)
    (xline : Nat) : (Nat → Bool) × Bool :=
  if Nat.land pixels (Nat.shiftRight 128 xline) ≠ 0 then
    let idx := (xcoord + xline) % 64 + 64 * ((ycoord + yline) % 32)
    (Function.update acc.1 idx (Bool.xor (acc.1 idx) true), acc.2 || acc.1 idx)
  else acc

/-- Inner column loop of opcode DXYN over the 8 sprite columns. -/
def drawRowLoop (xcoord ycoord yline pixels : Nat) (acc : (Nat → Bool) × Bool) :
    (Nat → Bool) × Bool :=
  (List.range 8).foldl (drawPixelStep xcoord ycoord yline pixels) acc

/-- Outer row loop of opcode DXYN: row `y_line` reads its bitmap from
`ram[i_reg + y_line]` (a `u16` addition). -/
def drawLoop (s : Emu) (xcoord ycoord numRows : Nat) : (Nat → Bool) × Bool :=
  (List.range numRows).foldl
    (fun acc yline => drawRowLoop xcoord ycoord yline (s.ram ((s.i_reg + yline) % 65536)) acc)
    (s.screen, false)

/-- Emu::execute from lib.rs: the full opcode dispatch, with the match
arms in source order.  `rng` is the injected `random()` byte of opcode
CXNN.  `none` models the panics: stack over/underflow, out-of-bounds
RAM or key indexing, and the `unimplemented!` catch-all arm. -/
def Emu.execute (s : Emu) (rng op : Nat) : Option Emu :=
  if digit1 op = 0 ∧ digit2 op = 0 ∧ digit3 op = 0 ∧ digit4 op = 0 then
    some s
  else if digit1 op = 0 ∧ digit2 op = 0 ∧ digit3 op = 0xE ∧ digit4 op = 0 then
    some { s with screen := fun _ => false }
  else if digit1 op = 0 ∧ digit2 op = 0 ∧ digit3 op = 0xE ∧ digit4 op = 0xE then
    match s.pop with
    | some (s1, ret) => some { s1 with pc := ret }
    | none => none
  else if digit1 op = 1 then
    some { s with pc := Nat.land op 0xFFF }
  else if digit1 op = 2 then
    match s.push s.pc with
    | some s1 => some { s1 with pc := Nat.land op 0xFFF }
    | none => none
  else if digit1 op = 3 then
    some (if s.v_reg (digit2 op) = Nat.land op 0xFF
      then { s with pc := (s.pc + 2) % 65536 } else s)
  else if digit1 op = 4 then
    some (if s.v_reg (digit2 op) ≠ Nat.land op 0xFF
      then { s with pc := (s.pc + 2) % 65536 } else s)
  else if digit1 op = 5 ∧ digit4 op = 0 then
    some (if s.v_reg (digit2 op) = s.v_reg (digit3 op)
      then { s with pc := (s.pc + 2) % 65536 } else s)
  else if digit1 op = 6 then
    some { s with v_reg := Function.update s.v_reg (digit2 op) (Nat.land op 0xFF) }
  else if digit1 op = 7 then
    some { s with
      v_reg := Function.update s.v_reg (digit2 op)
        ((s.v_reg (digit2 op) + Nat.land op 0xFF) % 256) }
  else if digit1 op = 8 ∧ digit4 op = 0 then
    some { s with v_reg := Function.update s.v_reg (digit2 op) (s.v_reg (digit3 op)) }
  else if digit1 op = 8 ∧ digit4 op = 1 then
    some { s with
      v_reg := Function.update s.v_reg (digit2 op)
        (Nat.lor (s.v_reg (digit2 op)) (s.v_reg (digit3 op))) }
  else if digit1 op = 8 ∧ digit4 op = 2 then
    some { s with
      v_reg := Function.update s.v_reg (digit2 op)
        (Nat.land (s.v_reg (digit2 op)) (s.v_reg (digit3 op))) }
  else if digit1 op = 8 ∧ digit4 op = 3 then
    some { s with
      v_reg := Function.update s.v_reg (digit2 op)
        (Nat.xor (s.v_reg (digit2 op)) (s.v_reg (digit3 op))) }
  else if digit1 op = 8 ∧ digit4 op = 4 then
    some { s with
      v_reg := Function.update
        (Function.update s.v_reg (digit2 op)
          ((s.v_reg (digit2 op) + s.v_reg (digit3 op)) % 256))
        0xF (if 256 ≤ s.v_reg (digit2 op) + s.v_reg (digit3 op) then 1 else 0) }
  else if digit1 op = 8 ∧ digit4 op = 5 then
    some { s with
      v_reg := Function.update
        (Function.update s.v_reg (digit2 op)
          ((s.v_reg (digit2 op) + 256 - s.v_reg (digit3 op)) % 256))
        0xF (if s.v_reg (digit2 op) < s.v_reg (digit3 op) then 0 else 1) }
  else if digit1 op = 8 ∧ digit4 op = 6 then
    some { s with
      v_reg := Function.update
        (Function.update s.v_reg (digit2 op) (Nat.shiftRight (s.v_reg (digit2 op)) 1))
        0xF (Nat.land (s.v_reg (digit2 op)) 1) }
  else if digit1 op = 8 ∧ digit4 op = 7 then
    some { s with
      v_reg := Function.update
        (Function.update s.v_reg (digit2 op)
          ((s.v_reg (digit3 op) + 256 - s.v_reg (digit2 op)) % 256))
        0xF (if s.v_reg (digit3 op) < s.v_reg (digit2 op) then 0 else 1) }
  else if digit1 op = 8 ∧ digit4 op = 0xE then
    some { s with
      v_reg := Function.update
        (Function.update s.v_reg (digit2 op) (Nat.shiftLeft (s.v_reg (digit2 op)) 1 % 256))
        0xF (Nat.land (Nat.shiftRight (s.v_reg (digit2 op)) 7) 1) }
  else if digit1 op = 9 ∧ digit4 op = 0 then
    -- source reads BOTH operands from digit2: `let x = digit2; let y = digit2;`
    some (if s.v_reg (digit2 op) ≠ s.v_reg (digit2 op)
      then { s with pc := (s.pc + 2) % 65536 } else s)
  else if digit1 op = 0xA then
    some { s with i_reg := Nat.land op 0xFFF }
  else if digit1 op = 0xB then
    some { s with pc := (s.v_reg 0 + Nat.land op 0xFFF) % 65536 }
  else if digit1 op = 0xC then
    some { s with
      v_reg := Function.update s.v_reg (digit2 op)
        (Nat.land (rng % 256) (Nat.land op 0xFF)) }
  else if digit1 op = 0xD then
    -- row r reads ram[i_reg + r]; any out-of-bounds row read panics,
    -- which for a u16 i_reg happens exactly unless i_reg + digit4 <= 4096
    if digit4 op = 0 ∨ s.i_reg + digit4 op ≤ 4096 then
      some { s with
        screen := (drawLoop s (s.v_reg (digit2 op)) (s.v_reg (digit3 op)) (digit4 op)).1,
        v_reg := Function.update s.v_reg 0xF
          (if (drawLoop s (s.v_reg (digit2 op)) (s.v_reg (digit3 op)) (digit4 op)).2
           then 1 else 0) }
    else none
  else if digit1 op = 0xE ∧ digit3 op = 9 ∧ digit4 op = 0xE then
    if s.v_reg (digit2 op) < 16 then
      some (if s.keys (s.v_reg (digit2 op))
        then { s with pc := (s.pc + 2) % 65536 } else s)
    else none
  else if digit1 op = 0xE ∧ digit3 op = 0xA ∧ digit4 op = 1 then
    if s.v_reg (digit2 op) < 16 then
      some (if s.keys (s.v_reg (digit2 op)) then s
        else { s with pc := (s.pc + 2) % 65536 })
    else none
  else if digit1 op = 0xF ∧ digit3 op = 0 ∧ digit4 op = 7 then
    some { s with v_reg := Function.update s.v_reg (digit2 op) s.dt }
  else if digit1 op = 0xF ∧ digit3 op = 0 ∧ digit4 op = 0xA then
    match findKey s.keys with
    | some i => some { s with v_reg := Function.update s.v_reg (digit2 op) i }
    | none => some { s with pc := (s.pc + 65534) % 65536 }
  else if digit1 op = 0xF ∧ digit3 op = 1 ∧ digit4 op = 5 then
    some { s with dt := s.v_reg (digit2 op) }
  else if digit1 op = 0xF ∧ digit3 op = 1 ∧ digit4 op = 8 then
    some { s with st := s.v_reg (digit2 op) }
  else if digit1 op = 0xF ∧ digit3 op = 1 ∧ digit4 op = 0xE then
    some { s with i_reg := (s.i_reg + s.v_reg (digit2 op)) % 65536 }
  else none

/-- Instruction word assembled by Emu::fetch:
`(ram[pc] << 8) | ram[pc + 1]`. -/
def Emu.fetchedOp (s : Emu) : Nat :=
  Nat.lor (Nat.shiftLeft (s.ram s.pc) 8) (s.ram (s.pc + 1))

/-- Emu::fetch from lib.rs: read the big-endian word at `pc`, advance
`pc` by 2.  Reading `ram[pc]` or `ram[pc + 1]` out of the 4096-byte RAM
panics, modelled by `none`. -/
def Emu.fetch (s : Emu) : Option (Emu × Nat) :=
  if s.pc + 1 < 4096 then
    some ({ s with pc := (s.pc + 2) % 65536 }, s.fetchedOp)
  else none

/-- Emu::tick from lib.rs: one fetch + decode + execute step. -/
def Emu.tick (s : Emu) (rng : Nat) : Option Emu :=
  match s.fetch with
  | some (s1, op) => s1.execute rng op
  | none => none

/-- State used as the concrete failing input of claim C1:
a fresh machine with `V[1] = 1` (so `V[1] ≠ V[2]`). -/
def emuC1 : Emu :=
  { Emu.new with v_reg := Function.update Emu.new.v_reg 1 1 }

/-- Framebuffer index the spec assigns to the sprite pixel of row `r`,
column `j`: column `(x0 + j) mod 64`, row `(y0 + r) mod 32`, row-major
with width 64. -/
def targetIdx (x0 y0 r j : Nat) : Nat := (x0 + j) % 64 + 64 * ((y0 + r) % 32)

/-- Bit `j` (most significant first) of sprite row `r`, whose bitmap the
spec reads from `memory[I + r]`. -/
def spriteRowBit (s : Emu) (r j : Nat) : Bool :=
  decide (Nat.land (s.ram (s.i_reg + r)) (Nat.shiftRight 128 j) ≠ 0)

/-- Cell `idx` is targeted by some set bit of the sprite (spec wording of
claim C6, for a draw with origin registers `x`,`y` and `n` rows). -/
def spriteHits (s : Emu) (x y n idx : Nat) : Prop :=
  ∃ r, r < n ∧ ∃ j, j < 8 ∧ spriteRowBit s r j = true ∧
    targetIdx (s.v_reg x) (s.v_reg y) r j = idx

/-- Some set bit of the sprite targets a cell lit before the draw, i.e.
some XOR turns a lit pixel unlit (spec wording of claim C6). -/
def spriteCollides (s : Emu) (x y n : Nat) : Prop :=
  ∃ r, r < n ∧ ∃ j, j < 8 ∧ spriteRowBit s r j = true ∧
    s.screen (targetIdx (s.v_reg x) (s.v_reg y) r j) = true

/-- Boolean per-row hit detection over the first `m` columns of the row
`yl` bitmap `pixels`. -/
def rowHitUpTo (x0 y0 yl pixels m idx : Nat) : Bool :=
  (List.range m).any (fun j =>
    decide (Nat.land pixels (Nat.shiftRight 128 j) ≠ 0) &&
    decide (targetIdx x0 y0 yl j = idx))

/-- Boolean per-row collision detection over the first `m` columns,
relative to the screen `scr`. -/
def rowCollideUpTo (x0 y0 yl pixels : Nat) (scr : Nat → Bool) (m : Nat) : Bool :=
  (List.range m).any (fun j =>
    decide (Nat.land pixels (Nat.shiftRight 128 j) ≠ 0) &&
    scr (targetIdx x0 y0 yl j))

/-- Boolean whole-sprite hit detection over the first `k` rows. -/
def hitUpTo (s : Emu) (x0 y0 k idx : Nat) : Bool :=
  (List.range k).any (fun r => rowHitUpTo x0 y0 r (s.ram (s.i_reg + r)) 8 idx)

/-- Boolean whole-sprite collision detection over the first `k` rows. -/
def collideUpTo (s : Emu) (x0 y0 k : Nat) : Bool :=
  (List.range k).any (fun r => rowCollideUpTo x0 y0 r (s.ram (s.i_reg + r)) s.screen 8)

/-- Concrete state for the C2 witness: V[1] = 200, V[2] = 100. -/
def emuC2 : Emu :=
  { Emu.new with v_reg := Function.update (Function.update Emu.new.v_reg 1 200) 2 100 }

/-- Concrete state for the C8 witness: the instruction word 0xF50A
stored at address 0x200 (the fresh program counter). -/
def emuC8 : Emu :=
  { Emu.new with ram := Function.update (Function.update Emu.new.ram 0x200 0xF5) 0x201 0x0A }

/-- Concrete state for the C9 witness: keys 3 and 7 latched. -/
def emuC9 : Emu :=
  { Emu.new with keys := Function.update (Function.update Emu.new.keys 7 true) 3 true }

/-- C4: the state produced by `new()` and the state produced by calling
`reset()` on an arbitrary machine are identical: both overwrite every
field with the same defaults (stack slots 0x200 included) and re-install
the fontset, so `reset s = new` for every state `s`. -/
theorem reset_eq_new (s : Emu) : s.reset = Emu.new := rfl

/-- C3 counterexample: the claim says every stack slot of a fresh machine
is zero, but `Emu::new` initialises every stack slot to 0x200. -/
theorem new_stack_slot_nonzero : Emu.new.stack 0 = 0x200 ∧ Emu.new.stack 0 ≠ 0 := by
  exact ⟨rfl, by decide⟩

/-- C3 (amended): the machine produced by `new()` has program counter
0x200, the 80-byte glyph table at the bottom of memory and zero in the
rest of memory, all-zero registers, index register, stack pointer and
timers, all-false keys and framebuffer — and every stack slot holds
0x200 (the start address), not zero. -/
theorem new_state_characterization :
    Emu.new.pc = 0x200 ∧
    (∀ i, i < 80 → Emu.new.ram i = FONTSET.getD i 0) ∧
    (∀ i, 80 ≤ i → Emu.new.ram i = 0) ∧
    (∀ i, Emu.new.screen i = false) ∧
    (∀ x, Emu.new.v_reg x = 0) ∧
    Emu.new.i_reg = 0 ∧
    Emu.new.sp = 0 ∧
    (∀ i, Emu.new.stack i = 0x200) ∧
    (∀ k, Emu.new.keys k = false) ∧
    Emu.new.dt = 0 ∧
    Emu.new.st = 0 := by
  refine ⟨rfl, fun i hi => ?_, fun i hi => ?_, fun _ => rfl, fun _ => rfl, rfl, rfl,
    fun _ => rfl, fun _ => rfl, rfl, rfl⟩
  · show installFontset (fun _ => 0) i = FONTSET.getD i 0
    rw [installFontset, if_pos hi]
  · show installFontset (fun _ => 0) i = 0
    rw [installFontset, if_neg (by omega)]

/-- Witness for the C3 theorem at concrete indices. -/
theorem new_state_characterization_witness :
    Emu.new.ram 0 = FONTSET.getD 0 0 ∧ Emu.new.ram 4095 = 0 :=
  ⟨new_state_characterization.2.1 0 (by decide),
   new_state_characterization.2.2.1 4095 (by decide)⟩

/-- C10: push with a full stack (sp = 16) and pop with an empty stack
(sp = 0) take the error branches and produce no state; under the
preconditions sp < 16 for push and 0 < sp for pop the error branches
are unreachable and the stack pointer stays within [0, 16]. -/
theorem stack_fail_fast (s : Emu) (v : Nat) :
    (s.sp = 16 → s.push v = none) ∧
    (s.sp = 0 → s.pop = none) ∧
    (s.sp < 16 → ∃ s', s.push v = some s' ∧ s'.sp = s.sp + 1 ∧ s'.sp ≤ 16 ∧
      s'.stack s.sp = v) ∧
    (0 < s.sp → s.sp ≤ 16 → ∃ p : Emu × Nat, s.pop = some p ∧
      p.1.sp = s.sp - 1 ∧ p.1.sp < 16 ∧ p.2 = s.stack (s.sp - 1)) := by
  refine ⟨fun h => ?_, fun h => ?_, fun h => ?_, fun h1 h2 => ?_⟩
  · rw [Emu.push, if_neg (by omega)]
  · rw [Emu.pop, if_neg (by omega)]
  · exact ⟨{ s with stack := Function.update s.stack s.sp v, sp := s.sp + 1 },
      by rw [Emu.push, if_pos h], rfl, (by omega : s.sp + 1 ≤ 16),
      Function.update_same _ _ _⟩
  · exact ⟨({ s with sp := s.sp - 1 }, s.stack (s.sp - 1)),
      by rw [Emu.pop, if_pos h1, if_pos (by omega)], rfl,
      (by omega : s.sp - 1 < 16), rfl⟩

/-- Witness for the C10 theorem: on a fresh machine pop fails fast and
push succeeds. -/
theorem stack_fail_fast_witness :
    Emu.new.pop = none ∧
    (∃ s', Emu.new.push 7 = some s' ∧ s'.sp = Emu.new.sp + 1 ∧ s'.sp ≤ 16 ∧
      s'.stack Emu.new.sp = 7) :=
  ⟨(stack_fail_fast Emu.new 7).2.1 rfl, (stack_fail_fast Emu.new 7).2.2.1 (by decide)⟩

/-- C7: `tick_timers` decrements `delay_timer` exactly when it is nonzero
and `sound_timer` exactly when it is nonzero, and the sound-trigger
event is reported exactly when `sound_timer` was 1 before the call
(in particular: once for st = 1, never for st = 0). -/
theorem tick_timers_correct (s : Emu) :
    s.tick_timers.1.dt = (if 0 < s.dt then s.dt - 1 else s.dt) ∧
    s.tick_timers.1.st = (if 0 < s.st then s.st - 1 else s.st) ∧
    s.tick_timers.2 = decide (s.st = 1) := by
  unfold Emu.tick_timers
  by_cases hd : 0 < s.dt <;> by_cases hs : 0 < s.st <;>
    simp [hd, hs] <;> omega

/-- C1: on the failing input (a state with V[1] = 1 and V[2] = 0, and
the instruction word 0x9120), the code leaves the machine completely
unchanged — it never skips, because the source reads both comparands of
opcode 9XY0 from the second nibble — while the claim requires the
program counter to advance by 2. -/
theorem nine_xy0_no_skip_at_failing_input :
    emuC1.v_reg 1 = 1 ∧ emuC1.v_reg 2 = 0 ∧
    Emu.execute emuC1 0 0x9120 = some emuC1 := ⟨rfl, rfl, rfl⟩

/-- C5 counterexample: executing 7,x,nn with x = 0xF (op 0x7F01) on a
fresh machine changes V[0xF] from 0 to 1, so "leaves V[0xF] unchanged"
fails for register index 0xF. -/
theorem add_imm_changes_flag_register :
    Emu.execute Emu.new 0 0x7F01 =
      some { Emu.new with v_reg := Function.update Emu.new.v_reg 15 1 } ∧
    Function.update Emu.new.v_reg 15 1 15 = 1 ∧ Emu.new.v_reg 15 = 0 :=
  ⟨rfl, rfl, rfl⟩

/-- C5 (amended): executing 7,x,nn with V[x] = a sets V[x] to
(a + nn) mod 256, and leaves V[0xF] unchanged whenever x ≠ 0xF (when
x = 0xF the sum itself is written to V[0xF]; there is no flag write). -/
theorem add_imm_correct (s : Emu) (rng op : Nat)
    (h1 : digit1 op = 7) (ha : s.v_reg (digit2 op) < 256) :
    ∃ s', s.execute rng op = some s' ∧
      s'.v_reg (digit2 op) = (s.v_reg (digit2 op) + Nat.land op 0xFF) % 256 ∧
      (digit2 op ≠ 0xF → s'.v_reg 0xF = s.v_reg 0xF) := by
  refine ⟨{ s with
      v_reg := Function.update s.v_reg (digit2 op)
        ((s.v_reg (digit2 op) + Nat.land op 0xFF) % 256) },
    by simp [Emu.execute, h1], ?_, fun hx => ?_⟩
  · exact Function.update_same _ _ _
  · exact Function.update_noteq (Ne.symm hx) _ _

/-- Witness for the C5 theorem at op 0x7105 on a fresh machine. -/
theorem add_imm_correct_witness :
    ∃ s', Emu.execute Emu.new 0 0x7105 = some s' ∧
      s'.v_reg (digit2 0x7105) =
        (Emu.new.v_reg (digit2 0x7105) + Nat.land 0x7105 0xFF) % 256 ∧
      (digit2 0x7105 ≠ 0xF → s'.v_reg 0xF = Emu.new.v_reg 0xF) :=
  add_imm_correct Emu.new 0 0x7105 (by decide) (by decide)

/-- C2: executing 8,x,y,4 with V[x] = a and V[y] = b (8-bit values) sets
V[0xF] to 1 exactly when a + b ≥ 256 and, for x ≠ 0xF, sets V[x] to
(a + b) mod 256; the flag is written after the sum, so for x = 0xF the
final V[0xF] is the carry flag, not the sum. -/
theorem add_with_carry_correct (s : Emu) (rng op : Nat)
    (h1 : digit1 op = 8) (h4 : digit4 op = 4)
    (ha : s.v_reg (digit2 op) < 256) (hb : s.v_reg (digit3 op) < 256) :
    ∃ s', s.execute rng op = some s' ∧
      s'.v_reg 0xF =
        (if 256 ≤ s.v_reg (digit2 op) + s.v_reg (digit3 op) then 1 else 0) ∧
      (digit2 op ≠ 0xF →
        s'.v_reg (digit2 op) = (s.v_reg (digit2 op) + s.v_reg (digit3 op)) % 256) := by
  refine ⟨{ s with
      v_reg := Function.update
        (Function.update s.v_reg (digit2 op)
          ((s.v_reg (digit2 op) + s.v_reg (digit3 op)) % 256))
        0xF (if 256 ≤ s.v_reg (digit2 op) + s.v_reg (digit3 op) then 1 else 0) },
    by simp [Emu.execute, h1, h4], ?_, fun hx => ?_⟩
  · show Function.update
        (Function.update s.v_reg (digit2 op)
          ((s.v_reg (digit2 op) + s.v_reg (digit3 op)) % 256))
        0xF (if 256 ≤ s.v_reg (digit2 op) + s.v_reg (digit3 op) then 1 else 0)
        0xF = (if 256 ≤ s.v_reg (digit2 op) + s.v_reg (digit3 op) then 1 else 0)
    exact Function.update_same _ _ _
  · show Function.update
        (Function.update s.v_reg (digit2 op)
          ((s.v_reg (digit2 op) + s.v_reg (digit3 op)) % 256))
        0xF (if 256 ≤ s.v_reg (digit2 op) + s.v_reg (digit3 op) then 1 else 0)
        (digit2 op) = (s.v_reg (digit2 op) + s.v_reg (digit3 op)) % 256
    rw [Function.update_noteq hx, Function.update_same]

/-- Witness for the C2 theorem at op 0x8124 with V[1] = 200, V[2] = 100. -/
theorem add_with_carry_correct_witness :
    ∃ s', Emu.execute emuC2 0 0x8124 = some s' ∧
      s'.v_reg 0xF =
        (if 256 ≤ emuC2.v_reg (digit2 0x8124) + emuC2.v_reg (digit3 0x8124)
         then 1 else 0) ∧
      (digit2 0x8124 ≠ 0xF →
        s'.v_reg (digit2 0x8124) =
          (emuC2.v_reg (digit2 0x8124) + emuC2.v_reg (digit3 0x8124)) % 256) :=
  add_with_carry_correct emuC2 0 0x8124 (by decide) (by decide) (by decide) (by decide)

/-- Helper: the FX0A key scan finds nothing when every scanned key is
clear. -/
theorem findKeyFrom_eq_none (keys : Nat → Bool) :
    ∀ fuel i, (∀ k, i ≤ k → k < i + fuel → keys k = false) →
      findKeyFrom keys i fuel = none := by
  intro fuel
  induction fuel with
  | zero => intro i _; rfl
  | succ n ih =>
    intro i h
    have hi : keys i = false := h i le_rfl (by omega)
    rw [findKeyFrom, hi]
    exact ih (i + 1) (fun k hk1 hk2 => h k (by omega) (by omega))

/-- Helper: when some scanned key is set, the FX0A key scan returns the
lowest set index in the scanned range. -/
theorem findKeyFrom_eq_some (keys : Nat → Bool) :
    ∀ fuel i k, i ≤ k → k < i + fuel → keys k = true →
      ∃ j, findKeyFrom keys i fuel = some j ∧ i ≤ j ∧ j < i + fuel ∧
        keys j = true ∧ ∀ l, i ≤ l → l < j → keys l = false := by
  intro fuel
  induction fuel with
  | zero => intro i k h1 h2 _; omega
  | succ n ih =>
    intro i k h1 h2 hk
    by_cases hi : keys i = true
    · exact ⟨i, by rw [findKeyFrom, hi]; rfl, le_rfl, by omega, hi,
        fun l hl1 hl2 => absurd hl2 (Nat.not_lt.mpr hl1)⟩
    · have hi' : keys i = false := by revert hi; cases keys i <;> simp
      by_cases hik : k = i
      · rw [hik, hi'] at hk; cases hk
      · obtain ⟨j, hj1, hj2, hj3, hj4, hj5⟩ := ih (i + 1) k (by omega) (by omega) hk
        refine ⟨j, by rw [findKeyFrom, hi']; exact hj1, by omega, by omega, hj4,
          fun l hl1 hl2 => ?_⟩
        by_cases hli : l = i
        · rw [hli]; exact hi'
        · exact hj5 l (by omega) hl2

/-- C9: when some key latch among the 16 is set, opcode F,x,0,A stores
the lowest set key index into V[x]; and in every case the execution
leaves the keys array itself unchanged. -/
theorem key_wait_lowest_key (s : Emu) (rng op : Nat)
    (h1 : digit1 op = 0xF) (h3 : digit3 op = 0) (h4 : digit4 op = 0xA) :
    ∃ s', s.execute rng op = some s' ∧ s'.keys = s.keys ∧
      ∀ k, k < 16 → s.keys k = true →
        ∃ i, i < 16 ∧ s.keys i = true ∧ (∀ j, j < i → s.keys j = false) ∧
          s'.v_reg (digit2 op) = i := by
  have hbr : s.execute rng op =
      match findKey s.keys with
      | some i => some { s with v_reg := Function.update s.v_reg (digit2 op) i }
      | none => some { s with pc := (s.pc + 65534) % 65536 } := by
    simp [Emu.execute, h1, h3, h4]
  rcases hfk : findKey s.keys with _ | i
  · rw [hfk] at hbr
    refine ⟨{ s with pc := (s.pc + 65534) % 65536 }, hbr, rfl, fun k hk hkey => ?_⟩
    obtain ⟨j, hj1, _, _, _, _⟩ :=
      findKeyFrom_eq_some s.keys 16 0 k (Nat.zero_le k) (by omega) hkey
    simp only [findKey] at hfk
    rw [hj1] at hfk
    cases hfk
  · rw [hfk] at hbr
    refine ⟨{ s with v_reg := Function.update s.v_reg (digit2 op) i }, hbr, rfl,
      fun k hk hkey => ?_⟩
    obtain ⟨j, hj1, _, hj3, hj4, hj5⟩ :=
      findKeyFrom_eq_some s.keys 16 0 k (Nat.zero_le k) (by omega) hkey
    simp only [findKey] at hfk
    rw [hj1] at hfk
    injection hfk with hji
    subst hji
    exact ⟨j, by omega, hj4, fun l hl => hj5 l (Nat.zero_le l) hl,
      Function.update_same _ _ _⟩

/-- Witness for the C9 theorem: with keys 3 and 7 latched, op 0xF50A. -/
theorem key_wait_lowest_key_witness :
    ∃ s', Emu.execute emuC9 0 0xF50A = some s' ∧ s'.keys = emuC9.keys ∧
      ∀ k, k < 16 → emuC9.keys k = true →
        ∃ i, i < 16 ∧ emuC9.keys i = true ∧ (∀ j, j < i → emuC9.keys j = false) ∧
          s'.v_reg (digit2 0xF50A) = i :=
  key_wait_lowest_key emuC9 0 0xF50A (by decide) (by decide) (by decide)

/-- C8: a whole fetch + execute step on an F,x,0,A instruction: with no
key latched the step returns the state unchanged (the fetch advance of
+2 is undone by the -2 in execute, and V[x] is untouched); with some key
latched the step stores a latched key index into V[x] and nets a +2
program-counter advance. -/
theorem key_wait_step_correct (s : Emu) (rng : Nat)
    (hpc : s.pc + 1 < 4096)
    (h1 : digit1 s.fetchedOp = 0xF) (h3 : digit3 s.fetchedOp = 0)
    (h4 : digit4 s.fetchedOp = 0xA) :
    ((∀ k, k < 16 → s.keys k = false) → s.tick rng = some s) ∧
    ((∃ k, k < 16 ∧ s.keys k = true) →
      ∃ s', s.tick rng = some s' ∧ s'.pc = s.pc + 2 ∧
        ∃ k, k < 16 ∧ s.keys k = true ∧ s'.v_reg (digit2 s.fetchedOp) = k) := by
  have hfe : s.fetch = some ({ s with pc := (s.pc + 2) % 65536 }, s.fetchedOp) := by
    rw [Emu.fetch, if_pos hpc]
  have hm : (s.pc + 2) % 65536 = s.pc + 2 := by omega
  have hbr : s.tick rng =
      match findKey s.keys with
      | some i =>
        some { s with
          pc := s.pc + 2
          v_reg := Function.update s.v_reg (digit2 s.fetchedOp) i }
      | none => some { s with pc := (s.pc + 2 + 65534) % 65536 } := by
    unfold Emu.tick
    rw [hfe]
    simp [Emu.execute, h1, h3, h4, hm]
  constructor
  · intro hnone
    have hfk : findKey s.keys = none :=
      findKeyFrom_eq_none s.keys 16 0 (fun k _ hk2 => hnone k (by omega))
    rw [hfk] at hbr
    have hm2 : (s.pc + 2 + 65534) % 65536 = s.pc := by omega
    rw [hm2] at hbr
    exact hbr
  · rintro ⟨k, hk, hkey⟩
    obtain ⟨j, hj1, _, hj3, hj4, _⟩ :=
      findKeyFrom_eq_some s.keys 16 0 k (Nat.zero_le k) (by omega) hkey
    have hfk : findKey s.keys = some j := hj1
    rw [hfk] at hbr
    exact ⟨_, hbr, rfl, j, by omega, hj4, Function.update_same _ _ _⟩

/-- Witness for the C8 theorem: fresh machine with 0xF50A at the program
counter and no key latched; the step is the identity. -/
theorem key_wait_step_correct_witness : Emu.tick emuC8 0 = some emuC8 :=
  (key_wait_step_correct emuC8 0 (by decide) (by decide) (by decide) (by decide)).1
    (fun k _ => rfl)

/-- Helper: distinct sprite pixels (rows below 32, columns below 64)
target distinct framebuffer cells. -/
theorem targetIdx_inj {x0 y0 r j r' j' : Nat} (hj : j < 64) (hj' : j' < 64)
    (hr : r < 32) (hr' : r' < 32)
    (h : targetIdx x0 y0 r j = targetIdx x0 y0 r' j') : r = r' ∧ j = j' := by
  unfold targetIdx at h
  omega

/-- Helper: within one sprite row, distinct columns target distinct
cells. -/
theorem targetIdx_inj_col {x0 y0 yl j j' : Nat} (hj : j < 64) (hj' : j' < 64)
    (h : targetIdx x0 y0 yl j = targetIdx x0 y0 yl j') : j = j' := by
  unfold targetIdx at h
  omega

/-- Helper: `List.any` only depends on the values of the predicate on
the list. -/
theorem list_any_congr {α : Type} {f g : α → Bool} :
    ∀ l : List α, (∀ a ∈ l, f a = g a) → l.any f = l.any g := by
  intro l
  induction l with
  | nil => intro _; rfl
  | cons a t ih =>
    intro h
    rw [List.any_cons, List.any_cons, h a (List.mem_cons_self a t),
      ih (fun b hb => h b (List.mem_cons_of_mem a hb))]

/-- Helper: unfolding one column of the per-row hit scan. -/
theorem rowHitUpTo_succ (x0 y0 yl pixels m idx : Nat) :
    rowHitUpTo x0 y0 yl pixels (m + 1) idx =
      (rowHitUpTo x0 y0 yl pixels m idx ||
        (decide (Nat.land pixels (Nat.shiftRight 128 m) ≠ 0) &&
         decide (targetIdx x0 y0 yl m = idx))) := by
  rw [rowHitUpTo, rowHitUpTo, List.range_succ, List.any_append, List.any_cons,
    List.any_nil, Bool.or_false]

/-- Helper: unfolding one column of the per-row collision scan. -/
theorem rowCollideUpTo_succ (x0 y0 yl pixels : Nat) (scr : Nat → Bool) (m : Nat) :
    rowCollideUpTo x0 y0 yl pixels scr (m + 1) =
      (rowCollideUpTo x0 y0 yl pixels scr m ||
        (decide (Nat.land pixels (Nat.shiftRight 128 m) ≠ 0) &&
         scr (targetIdx x0 y0 yl m))) := by
  rw [rowCollideUpTo, rowCollideUpTo, List.range_succ, List.any_append, List.any_cons,
    List.any_nil, Bool.or_false]

/-- Helper: unfolding one row of the whole-sprite hit scan. -/
theorem hitUpTo_succ (s : Emu) (x0 y0 k idx : Nat) :
    hitUpTo s x0 y0 (k + 1) idx =
      (hitUpTo s x0 y0 k idx ||
        rowHitUpTo x0 y0 k (s.ram (s.i_reg + k)) 8 idx) := by
  rw [hitUpTo, hitUpTo, List.range_succ, List.any_append, List.any_cons,
    List.any_nil, Bool.or_false]

/-- Helper: unfolding one row of the whole-sprite collision scan. -/
theorem collideUpTo_succ (s : Emu) (x0 y0 k : Nat) :
    collideUpTo s x0 y0 (k + 1) =
      (collideUpTo s x0 y0 k ||
        rowCollideUpTo x0 y0 k (s.ram (s.i_reg + k)) s.screen 8) := by
  rw [collideUpTo, collideUpTo, List.range_succ, List.any_append, List.any_cons,
    List.any_nil, Bool.or_false]

/-- Helper: invariant of the inner column loop of DXYN.  After folding
the first `m` columns the screen is the initial screen XORed with the
per-row hit scan, and the flipped flag accumulates the per-row collision
scan over the initial screen. -/
theorem drawRow_aux (x0 y0 yl pixels : Nat) (acc : (Nat → Bool) × Bool) :
    ∀ m, m ≤ 8 →
      (∀ idx, ((List.range m).foldl (drawPixelStep x0 y0 yl pixels) acc).1 idx =
          Bool.xor (acc.1 idx) (rowHitUpTo x0 y0 yl pixels m idx)) ∧
      ((List.range m).foldl (drawPixelStep x0 y0 yl pixels) acc).2 =
        (acc.2 || rowCollideUpTo x0 y0 yl pixels acc.1 m) := by
  intro m
  induction m with
  | zero =>
    intro _
    refine ⟨fun idx => by simp [rowHitUpTo], by simp [rowCollideUpTo]⟩
  | succ m ih =>
    intro hm
    obtain ⟨ihf, ihs⟩ := ih (by omega)
    have hfold : (List.range (m + 1)).foldl (drawPixelStep x0 y0 yl pixels) acc =
        drawPixelStep x0 y0 yl pixels
          ((List.range m).foldl (drawPixelStep x0 y0 yl pixels) acc) m := by
      rw [List.range_succ, List.foldl_append, List.foldl_cons, List.foldl_nil]
    by_cases hbit : Nat.land pixels (Nat.shiftRight 128 m) ≠ 0
    · have hnoT : rowHitUpTo x0 y0 yl pixels m (targetIdx x0 y0 yl m) = false := by
        rw [← Bool.not_eq_true, rowHitUpTo, List.any_eq_true]
        rintro ⟨j, hj, hb⟩
        rw [List.mem_range] at hj
        rw [Bool.and_eq_true, decide_eq_true_iff, decide_eq_true_iff] at hb
        exact absurd (targetIdx_inj_col (by omega) (by omega) hb.2) (by omega)
      have hPT : ((List.range m).foldl (drawPixelStep x0 y0 yl pixels) acc).1
          (targetIdx x0 y0 yl m) = acc.1 (targetIdx x0 y0 yl m) := by
        rw [ihf, hnoT, Bool.xor_false]
      have hstep : drawPixelStep x0 y0 yl pixels
          ((List.range m).foldl (drawPixelStep x0 y0 yl pixels) acc) m =
          (Function.update
              ((List.range m).foldl (drawPixelStep x0 y0 yl pixels) acc).1
              (targetIdx x0 y0 yl m)
              (Bool.xor
                (((List.range m).foldl (drawPixelStep x0 y0 yl pixels) acc).1
                  (targetIdx x0 y0 yl m)) true),
            ((List.range m).foldl (drawPixelStep x0 y0 yl pixels) acc).2 ||
              ((List.range m).foldl (drawPixelStep x0 y0 yl pixels) acc).1
                (targetIdx x0 y0 yl m)) := by
        unfold drawPixelStep
        rw [if_pos hbit]
        rfl
      refine ⟨fun idx => ?_, ?_⟩
      · rw [hfold, hstep, rowHitUpTo_succ]
        dsimp only
        rcases eq_or_ne idx (targetIdx x0 y0 yl m) with heq | hne
        · subst heq
          rw [Function.update_same, hPT, hnoT, decide_eq_true hbit,
            decide_eq_true (Eq.refl (targetIdx x0 y0 yl m)), Bool.true_and,
            Bool.false_or]
        · rw [Function.update_noteq hne, ihf idx,
            decide_eq_false (show ¬(targetIdx x0 y0 yl m = idx) from fun h => hne h.symm),
            Bool.and_false, Bool.or_false]
      · rw [hfold, hstep]
        dsimp only
        rw [rowCollideUpTo_succ, ihs, hPT, decide_eq_true hbit, Bool.true_and,
          Bool.or_assoc]
    · have hstep : drawPixelStep x0 y0 yl pixels
          ((List.range m).foldl (drawPixelStep x0 y0 yl pixels) acc) m =
          (List.range m).foldl (drawPixelStep x0 y0 yl pixels) acc := by
        unfold drawPixelStep
        rw [if_neg hbit]
      refine ⟨fun idx => ?_, ?_⟩
      · rw [hfold, hstep, rowHitUpTo_succ, ihf idx, decide_eq_false hbit,
          Bool.false_and, Bool.or_false]
      · rw [hfold, hstep, rowCollideUpTo_succ, ihs, decide_eq_false hbit,
          Bool.false_and, Bool.or_false]

/-- Helper: the inner column loop of DXYN, packaged over all 8 columns. -/
theorem drawRowLoop_spec (x0 y0 yl pixels : Nat) (acc : (Nat → Bool) × Bool) :
    (∀ idx, (drawRowLoop x0 y0 yl pixels acc).1 idx =
        Bool.xor (acc.1 idx) (rowHitUpTo x0 y0 yl pixels 8 idx)) ∧
    (drawRowLoop x0 y0 yl pixels acc).2 =
      (acc.2 || rowCollideUpTo x0 y0 yl pixels acc.1 8) :=
  drawRow_aux x0 y0 yl pixels acc 8 le_rfl

/-- Helper: a cell targeted by row `k` of the sprite is not targeted by
any earlier row (rows of one draw are pairwise distinct modulo 32). -/
theorem hitUpTo_earlier_ne (s : Emu) (x0 y0 k n : Nat) (hk : k < n) (hn : n ≤ 16)
    (j : Nat) (hj : j < 8) :
    hitUpTo s x0 y0 k (targetIdx x0 y0 k j) = false := by
  rw [← Bool.not_eq_true, hitUpTo, List.any_eq_true]
  rintro ⟨r, hr, hrow⟩
  rw [List.mem_range] at hr
  rw [rowHitUpTo, List.any_eq_true] at hrow
  obtain ⟨j', hj', hb⟩ := hrow
  rw [List.mem_range] at hj'
  rw [Bool.and_eq_true, decide_eq_true_iff, decide_eq_true_iff] at hb
  have := targetIdx_inj (by omega) (by omega) (by omega) (by omega) hb.2
  omega

/-- Helper: a cell hit by row `k` is not hit by the rows before `k`. -/
theorem hit_disjoint (s : Emu) (x0 y0 k n : Nat) (hk : k < n) (hn : n ≤ 16) (idx : Nat)
    (h2 : rowHitUpTo x0 y0 k (s.ram (s.i_reg + k)) 8 idx = true) :
    hitUpTo s x0 y0 k idx = false := by
  rw [rowHitUpTo, List.any_eq_true] at h2
  obtain ⟨j, hj, hb⟩ := h2
  rw [List.mem_range] at hj
  rw [Bool.and_eq_true, decide_eq_true_iff, decide_eq_true_iff] at hb
  rw [← hb.2]
  exact hitUpTo_earlier_ne s x0 y0 k n hk hn j hj

/-- Helper: the per-row collision scan only reads the screen at the
row's eight target cells. -/
theorem rowCollideUpTo_congr (x0 y0 yl pixels : Nat) (scrA scrB : Nat → Bool)
    (h : ∀ j, j < 8 → scrA (targetIdx x0 y0 yl j) = scrB (targetIdx x0 y0 yl j)) :
    rowCollideUpTo x0 y0 yl pixels scrA 8 = rowCollideUpTo x0 y0 yl pixels scrB 8 := by
  rw [rowCollideUpTo, rowCollideUpTo]
  refine list_any_congr _ (fun j hj => ?_)
  rw [h j (List.mem_range.mp hj)]

/-- Helper: invariant of the outer row loop of DXYN over the first `k`
rows: the screen is the initial screen XORed with the hit scan, and the
flipped flag is the collision scan over the initial screen. -/
theorem drawLoop_aux (s : Emu) (x0 y0 n : Nat) (hn : n ≤ 16) (hb : s.i_reg + n ≤ 4096) :
    ∀ k, k ≤ n →
      (∀ idx, ((List.range k).foldl
          (fun acc yline => drawRowLoop x0 y0 yline (s.ram ((s.i_reg + yline) % 65536)) acc)
          (s.screen, false)).1 idx =
        Bool.xor (s.screen idx) (hitUpTo s x0 y0 k idx)) ∧
      ((List.range k).foldl
          (fun acc yline => drawRowLoop x0 y0 yline (s.ram ((s.i_reg + yline) % 65536)) acc)
          (s.screen, false)).2 = collideUpTo s x0 y0 k := by
  intro k
  induction k with
  | zero =>
    intro _
    refine ⟨fun idx => by simp [hitUpTo], by simp [collideUpTo]⟩
  | succ k ih =>
    intro hk
    obtain ⟨ihf, ihs⟩ := ih (by omega)
    have hmod : (s.i_reg + k) % 65536 = s.i_reg + k := by omega
    have hfold : (List.range (k + 1)).foldl
        (fun acc yline => drawRowLoop x0 y0 yline (s.ram ((s.i_reg + yline) % 65536)) acc)
        (s.screen, false) =
        drawRowLoop x0 y0 k (s.ram (s.i_reg + k))
          ((List.range k).foldl
            (fun acc yline => drawRowLoop x0 y0 yline (s.ram ((s.i_reg + yline) % 65536)) acc)
            (s.screen, false)) := by
      rw [List.range_succ, List.foldl_append, List.foldl_cons, List.foldl_nil, hmod]
    obtain ⟨rf, rs⟩ := drawRowLoop_spec x0 y0 k (s.ram (s.i_reg + k))
      ((List.range k).foldl
        (fun acc yline => drawRowLoop x0 y0 yline (s.ram ((s.i_reg + yline) % 65536)) acc)
        (s.screen, false))
    refine ⟨fun idx => ?_, ?_⟩
    · rw [hfold, rf idx, ihf idx, hitUpTo_succ]
      by_cases hrow : rowHitUpTo x0 y0 k (s.ram (s.i_reg + k)) 8 idx = true
      · rw [hrow, hit_disjoint s x0 y0 k n (by omega) hn idx hrow]
        simp
      · have hrow' : rowHitUpTo x0 y0 k (s.ram (s.i_reg + k)) 8 idx = false := by
          revert hrow
          cases rowHitUpTo x0 y0 k (s.ram (s.i_reg + k)) 8 idx <;> simp
        rw [hrow']
        simp
    · rw [hfold, rs, ihs, collideUpTo_succ,
        rowCollideUpTo_congr x0 y0 k (s.ram (s.i_reg + k)) _ s.screen
          (fun j hj => by rw [ihf, hitUpTo_earlier_ne s x0 y0 k n (by omega) hn j hj,
            Bool.xor_false])]

/-- Helper: the whole DXYN draw loop produces the initial screen XORed
with the hit scan, and the flipped flag equals the collision scan. -/
theorem drawLoop_spec (s : Emu) (x0 y0 n : Nat) (hn : n ≤ 16) (hb : s.i_reg + n ≤ 4096) :
    (∀ idx, (drawLoop s x0 y0 n).1 idx =
        Bool.xor (s.screen idx) (hitUpTo s x0 y0 n idx)) ∧
    (drawLoop s x0 y0 n).2 = collideUpTo s x0 y0 n :=
  drawLoop_aux s x0 y0 n hn hb n le_rfl

/-- Helper: the Boolean hit scan agrees with the spec-level predicate. -/
theorem hitUpTo_iff (s : Emu) (x y n idx : Nat) :
    hitUpTo s (s.v_reg x) (s.v_reg y) n idx = true ↔ spriteHits s x y n idx := by
  rw [hitUpTo, List.any_eq_true]
  constructor
  · rintro ⟨r, hr, hrow⟩
    rw [List.mem_range] at hr
    rw [rowHitUpTo, List.any_eq_true] at hrow
    obtain ⟨j, hj, hb⟩ := hrow
    rw [List.mem_range] at hj
    rw [Bool.and_eq_true, decide_eq_true_iff, decide_eq_true_iff] at hb
    exact ⟨r, hr, j, hj, decide_eq_true hb.1, hb.2⟩
  · rintro ⟨r, hr, j, hj, hbit, htar⟩
    rw [spriteRowBit, decide_eq_true_iff] at hbit
    refine ⟨r, List.mem_range.mpr hr, ?_⟩
    rw [rowHitUpTo, List.any_eq_true]
    refine ⟨j, List.mem_range.mpr hj, ?_⟩
    rw [Bool.and_eq_true, decide_eq_true_iff, decide_eq_true_iff]
    exact ⟨hbit, htar⟩

/-- Helper: the Boolean collision scan agrees with the spec-level
predicate. -/
theorem collideUpTo_iff (s : Emu) (x y n : Nat) :
    collideUpTo s (s.v_reg x) (s.v_reg y) n = true ↔ spriteCollides s x y n := by
  rw [collideUpTo, List.any_eq_true]
  constructor
  · rintro ⟨r, hr, hrow⟩
    rw [List.mem_range] at hr
    rw [rowCollideUpTo, List.any_eq_true] at hrow
    obtain ⟨j, hj, hb⟩ := hrow
    rw [List.mem_range] at hj
    rw [Bool.and_eq_true, decide_eq_true_iff] at hb
    exact ⟨r, hr, j, hj, decide_eq_true hb.1, hb.2⟩
  · rintro ⟨r, hr, j, hj, hbit, hscr⟩
    rw [spriteRowBit, decide_eq_true_iff] at hbit
    refine ⟨r, List.mem_range.mpr hr, ?_⟩
    rw [rowCollideUpTo, List.any_eq_true]
    refine ⟨j, List.mem_range.mpr hj, ?_⟩
    rw [Bool.and_eq_true, decide_eq_true_iff]
    exact ⟨hbit, hscr⟩

/-- C6: for a draw instruction D,x,y,n whose sprite rows are in memory
bounds, every cell targeted by a set sprite bit (column (V[x]+j) mod 64,
row (V[y]+r) mod 32, wrapped independently per pixel) is XOR-flipped and
every other cell is untouched, and V[0xF] ends 1 exactly when some XOR
turned a lit pixel unlit anywhere in the sprite, else 0. -/
theorem draw_sprite_correct (s : Emu) (rng op : Nat)
    (hop : digit1 op = 0xD) (hbound : s.i_reg + digit4 op ≤ 4096) :
    ∃ s', s.execute rng op = some s' ∧
      (∀ idx,
        (spriteHits s (digit2 op) (digit3 op) (digit4 op) idx →
          s'.screen idx = !(s.screen idx)) ∧
        (¬ spriteHits s (digit2 op) (digit3 op) (digit4 op) idx →
          s'.screen idx = s.screen idx)) ∧
      (spriteCollides s (digit2 op) (digit3 op) (digit4 op) → s'.v_reg 0xF = 1) ∧
      (¬ spriteCollides s (digit2 op) (digit3 op) (digit4 op) → s'.v_reg 0xF = 0) := by
  have hn : digit4 op ≤ 16 := le_trans Nat.and_le_right (by norm_num)
  have hex : s.execute rng op = some { s with
      screen := (drawLoop s (s.v_reg (digit2 op)) (s.v_reg (digit3 op)) (digit4 op)).1,
      v_reg := Function.update s.v_reg 0xF
        (if (drawLoop s (s.v_reg (digit2 op)) (s.v_reg (digit3 op)) (digit4 op)).2
         then 1 else 0) } := by
    simp [Emu.execute, hop, hbound]
  obtain ⟨hfst, hsnd⟩ :=
    drawLoop_spec s (s.v_reg (digit2 op)) (s.v_reg (digit3 op)) (digit4 op) hn hbound
  refine ⟨_, hex, fun idx => ⟨fun hh => ?_, fun hh => ?_⟩, fun hc => ?_, fun hc => ?_⟩
  · show (drawLoop s (s.v_reg (digit2 op)) (s.v_reg (digit3 op)) (digit4 op)).1 idx =
      !(s.screen idx)
    rw [hfst idx, (hitUpTo_iff s (digit2 op) (digit3 op) (digit4 op) idx).mpr hh,
      Bool.xor_true]
  · show (drawLoop s (s.v_reg (digit2 op)) (s.v_reg (digit3 op)) (digit4 op)).1 idx =
      s.screen idx
    have hfalse : hitUpTo s (s.v_reg (digit2 op)) (s.v_reg (digit3 op)) (digit4 op) idx
        = false := by
      rw [← Bool.not_eq_true]
      exact fun ht => hh ((hitUpTo_iff s (digit2 op) (digit3 op) (digit4 op) idx).mp ht)
    rw [hfst idx, hfalse, Bool.xor_false]
  · show Function.update s.v_reg 0xF
      (if (drawLoop s (s.v_reg (digit2 op)) (s.v_reg (digit3 op)) (digit4 op)).2
       then 1 else 0) 0xF = 1
    rw [Function.update_same, hsnd,
      (collideUpTo_iff s (digit2 op) (digit3 op) (digit4 op)).mpr hc, if_pos rfl]
  · show Function.update s.v_reg 0xF
      (if (drawLoop s (s.v_reg (digit2 op)) (s.v_reg (digit3 op)) (digit4 op)).2
       then 1 else 0) 0xF = 0
    have hfalse : collideUpTo s (s.v_reg (digit2 op)) (s.v_reg (digit3 op)) (digit4 op)
        = false := by
      rw [← Bool.not_eq_true]
      exact fun ht => hc ((collideUpTo_iff s (digit2 op) (digit3 op) (digit4 op)).mp ht)
    rw [Function.update_same, hsnd, hfalse]
    rfl

/-- Witness for the C6 theorem: drawing the one-row sprite of op 0xD001
on a fresh machine (row bitmap taken from the glyph table at I = 0). -/
theorem draw_sprite_correct_witness :
    ∃ s', Emu.execute Emu.new 0 0xD001 = some s' ∧
      (∀ idx,
        (spriteHits Emu.new (digit2 0xD001) (digit3 0xD001) (digit4 0xD001) idx →
          s'.screen idx = !(Emu.new.screen idx)) ∧
        (¬ spriteHits Emu.new (digit2 0xD001) (digit3 0xD001) (digit4 0xD001) idx →
          s'.screen idx = Emu.new.screen idx)) ∧
      (spriteCollides Emu.new (digit2 0xD001) (digit3 0xD001) (digit4 0xD001) →
        s'.v_reg 0xF = 1) ∧
      (¬ spriteCollides Emu.new (digit2 0xD001) (digit3 0xD001) (digit4 0xD001) →
        s'.v_reg 0xF = 0) :=
  draw_sprite_correct Emu.new 0 0xD001 (by decide) (by decide)

end Chip8
